import Mathlib

/-!
Shallow embedding of the stress-ng mapping stressor (src/stress-rmap.c) and
allocator stressor (stress_malloc, src/unnamed/part_000), with theorems
checking the specification's claims against the code.

Modelling conventions:
* machine integers are `Nat`; the C bit operations `&`, `>>` become
  `&&&`, `>>>` on `Nat`;
* the run-control flag `opt_do_run` is modelled as constantly true inside
  worker loops unless a claim is about the abort path, in which case it is
  an explicit per-iteration input;
* random values (`mwc8`/`mwc32`/`mwc64`) and the outcomes of fallible
  system calls (`fork`, `malloc`, `realloc`, `calloc`, `waitpid`) are
  explicit inputs, so worker loops are driven by input lists;
* memory-mapped windows are modelled by their abstract contents (one `Nat`
  per window, since `memset` fills a whole window with one byte value);
* unbounded C loops are modelled with explicit fuel: a result of `none`
  means the loop did not exit within the given fuel.
-/

/-- RMAP_CHILD_MAX from stress-rmap.c: the fixed worker count. -/
def RMAP_CHILD_MAX : Nat := 16

/-- MAPPINGS_MAX from stress-rmap.c: the number of mapping windows. -/
def MAPPINGS_MAX : Nat := 64

/-- MAPPING_PAGES from stress-rmap.c: pages per mapping window. -/
def MAPPING_PAGES : Nat := 16

/-- Signal number of SIGKILL on Linux. -/
def SIGKILL : Nat := 9

/-- Signal number of SIGTERM on Linux. -/
def SIGTERM : Nat := 15

/-- errno value EINTR on Linux. -/
def EINTR : Nat := 4

/-- errno value EAGAIN on Linux. -/
def EAGAIN : Nat := 11

/-- One loop iteration's random inputs for `stress_rmap_child`:
`rnd` is the `mwc32()` value selecting the strategy, `fills` the successive
`mwc8()` fill bytes (one per touched window), `idxs` the successive
`mwc32()` draws of the random-index strategy. -/
structure RmapIn where
  rnd : Nat
  fills : List Nat
  idxs : List Nat

/-- Case 0 of `stress_rmap_child`: forward sweep
`for (i = 0; i < MAPPINGS_MAX; i++) memset(mappings[i], mwc8(), sz)`.
The argument `n` counts the remaining iterations, so the current index is
`MAPPINGS_MAX - n`; the initial call uses `n = MAPPINGS_MAX`. -/
def rmap_forward_go (fills : List Nat) (ws : List Nat) : Nat → List Nat
  | 0 => ws
  | n + 1 =>
    rmap_forward_go fills
      (ws.set (MAPPINGS_MAX - (n + 1)) (fills.getD (MAPPINGS_MAX - (n + 1)) 0)) n

/-- Case 1 of `stress_rmap_child`: backward sweep
`for (i = MAPPINGS_MAX - 1; i >= 0; i--) memset(mappings[i], mwc8(), sz)`.
`n` counts the remaining iterations; the current index is `n - 1`, and the
step number (for indexing the fill bytes) is `MAPPINGS_MAX - n`. -/
def rmap_backward_go (fills : List Nat) (ws : List Nat) : Nat → List Nat
  | 0 => ws
  | n + 1 =>
    rmap_backward_go fills
      (ws.set n (fills.getD (MAPPINGS_MAX - (n + 1)) 0)) n

/-- Case 2 of `stress_rmap_child`: random-index sweep
`for (i = 0; i < MAPPINGS_MAX; i++) { j = mwc32() % MAPPINGS_MAX; memset(mappings[j], ...) }`.
`n` counts the remaining iterations; the step number is `MAPPINGS_MAX - n`. -/
def rmap_random_go (fills idxs : List Nat) (ws : List Nat) : Nat → List Nat
  | 0 => ws
  | n + 1 =>
    rmap_random_go fills idxs
      (ws.set (idxs.getD (MAPPINGS_MAX - (n + 1)) 0 % MAPPINGS_MAX)
        (fills.getD (MAPPINGS_MAX - (n + 1)) 0)) n

/-- Case 3 of `stress_rmap_child`: pairwise copy
`for (i = 0; i < MAPPINGS_MAX - 1; i++) memcpy(mappings[i], mappings[i + 1], sz)`.
`n` counts the remaining iterations (initially `MAPPINGS_MAX - 1`); the
current index is `(MAPPINGS_MAX - 1) - n`. -/
def rmap_case3_go (ws : List Nat) : Nat → List Nat
  | 0 => ws
  | n + 1 =>
    rmap_case3_go
      (ws.set ((MAPPINGS_MAX - 1) - (n + 1))
        (ws.getD (((MAPPINGS_MAX - 1) - (n + 1)) + 1) 0)) n

/-- One iteration of the `stress_rmap_child` do-while body: select one of
the four strategies by `mwc32() & 3`, run it over the windows, then
`(*counter)++` (the increment sits after the switch, outside every
per-window loop). -/
def rmap_iter (inp : RmapIn) (ws : List Nat) (counter : Nat) : List Nat × Nat :=
  let ws2 :=
    match inp.rnd &&& 3 with
    | 0 => rmap_forward_go inp.fills ws MAPPINGS_MAX
    | 1 => rmap_backward_go inp.fills ws MAPPINGS_MAX
    | 2 => rmap_random_go inp.fills inp.idxs ws MAPPINGS_MAX
    | _ => rmap_case3_go ws (MAPPINGS_MAX - 1)
  (ws2, counter + 1)

/-- The `stress_rmap_child` do-while loop with `opt_do_run` held true:
run `rmap_iter`, then continue while `!max_ops || *counter < max_ops`.
Returns `some (windows, counter)` on loop exit, `none` if the loop does
not exit within `fuel` iterations. -/
def stress_rmap_child_go : Nat → List RmapIn → Nat → List Nat → Nat → Option (List Nat × Nat)
  | 0, _, _, _, _ => none
  | fuel + 1, ins, max_ops, ws, counter =>
    let s := rmap_iter (ins.headD ⟨0, [], []⟩) ws counter
    if max_ops ≠ 0 ∧ max_ops ≤ s.2 then some s
    else stress_rmap_child_go fuel ins.tail max_ops s.1 s.2

/-- Counter-only skeleton of the `stress_rmap_child` loop: the loop's exit
condition reads only `max_ops` and the counter, never the window state. -/
def stress_rmap_child_counter : Nat → Nat → Nat → Option Nat
  | 0, _, _ => none
  | fuel + 1, max_ops, counter =>
    if max_ops ≠ 0 ∧ max_ops ≤ counter + 1 then some (counter + 1)
    else stress_rmap_child_counter fuel max_ops (counter + 1)

/-- The per-child operation budget computed by `stress_rmap` at the call
`stress_rmap_child(&counters[i], max_ops / RMAP_CHILD_MAX, ...)`:
C unsigned division, i.e. floor division. -/
def rmap_child_budget (max_ops : Nat) : Nat := max_ops / RMAP_CHILD_MAX

/-- One pass of the `stress_rmap` parent wait loop over the shared slots:
`for (i = 0; i < RMAP_CHILD_MAX; i++) *counter += counters[i];` —
each slot is added into the externally visible counter. -/
def stress_rmap_aggregate_pass (counter : Nat) (slots : List Nat) : Nat :=
  slots.foldl (fun c s => c + s) counter

/-- The `stress_rmap` parent wait loop across several passes, each pass
seeing one snapshot of the 16 slots; the visible counter is never reset
between passes. -/
def stress_rmap_aggregate (counter : Nat) (passes : List (List Nat)) : Nat :=
  passes.foldl stress_rmap_aggregate_pass counter

/-- `stress_alloc_size()` from the allocator stressor:
`len = mwc64() % opt_malloc_bytes; return len ? len : 1;`.
`r` is the `mwc64()` draw. -/
def stress_alloc_size (r : Nat) (opt_malloc_bytes : Nat) : Nat :=
  let len := r % opt_malloc_bytes
  if len ≠ 0 then len else 1

/-- One loop iteration's inputs for the `stress_malloc` child:
`rnd` is the `mwc32()` draw, `lenRnd` the `mwc64()` draw behind
`stress_alloc_size`, `allocOk` whether the `malloc`/`calloc`/`realloc`
call of this iteration (if any) succeeds, `run` the value of `opt_do_run`
observed at the start of the iteration. -/
structure MallocIn where
  rnd : Nat
  lenRnd : Nat
  allocOk : Bool
  run : Bool

/-- One iteration of the `stress_malloc` child do-while body.  The table
`addr` holds `some len` for a live allocation of `len` bytes and `none`
for an empty slot (freeing an allocation empties its slot in the model).
Returns the new table, the new counter, and whether the iteration took
the `goto abort` path because `opt_do_run` was observed clear. -/
def stress_malloc_iter (opt_malloc_bytes opt_malloc_max : Nat) (inp : MallocIn)
    (addr : List (Option Nat)) (counter : Nat) :
    List (Option Nat) × Nat × Bool :=
  let i := inp.rnd % opt_malloc_max
  let action := (inp.rnd >>> 12) &&& 1
  let do_calloc := (inp.rnd >>> 14) &&& 0x1f
  if !inp.run then (addr, counter, true)
  else
    match addr.getD i none with
    | some _ =>
      if action ≠ 0 then
        (addr.set i none, counter + 1, false)
      else
        let len := stress_alloc_size inp.lenRnd opt_malloc_bytes
        if inp.allocOk then (addr.set i (some len), counter + 1, false)
        else (addr, counter, false)
    | none =>
      if action ≠ 0 then
        let len := stress_alloc_size inp.lenRnd opt_malloc_bytes
        if do_calloc = 0 then
          let n := ((inp.rnd >>> 15) % 17) + 1
          if inp.allocOk then (addr.set i (some (n * (len / n))), counter + 1, false)
          else (addr, counter, false)
        else
          if inp.allocOk then (addr.set i (some len), counter + 1, false)
          else (addr, counter, false)
      else (addr, counter, false)

/-- The final loop of the `stress_malloc` child at the `abort:` label,
reached by both exit paths (normal loop exit falls through to the label,
the mid-iteration bail-out jumps to it):
`for (j = 0; j < opt_malloc_max; j++) free(addr[j]);` — every slot's
allocation is released (`free(NULL)` is a no-op), so in the model every
slot becomes empty. -/
def stress_malloc_cleanup (addr : List (Option Nat)) : List (Option Nat) :=
  addr.map (fun _ => none)

/-- The `stress_malloc` child do-while loop, driven by one `MallocIn` per
iteration; an exhausted input list models the run-control signal being
observed clear at the next iteration's check.  Returns the table and
counter at the point the loop is left (before the `abort:` cleanup). -/
def stress_malloc_go (opt_malloc_bytes opt_malloc_max : Nat) :
    List MallocIn → Nat → List (Option Nat) → Nat → List (Option Nat) × Nat
  | [], _, addr, counter => (addr, counter)
  | inp :: rest, max_ops, addr, counter =>
    let s := stress_malloc_iter opt_malloc_bytes opt_malloc_max inp addr counter
    if s.2.2 then (s.1, s.2.1)
    else if max_ops ≠ 0 ∧ max_ops ≤ s.2.1 then (s.1, s.2.1)
    else stress_malloc_go opt_malloc_bytes opt_malloc_max rest max_ops s.1 s.2.1

/-- The whole `stress_malloc` child: zeroed table, the bounded loop, then
the `abort:` cleanup that every exit path reaches. -/
def stress_malloc_child (opt_malloc_bytes opt_malloc_max : Nat)
    (ins : List MallocIn) (max_ops : Nat) : List (Option Nat) × Nat :=
  let s := stress_malloc_go opt_malloc_bytes opt_malloc_max ins max_ops
    (List.replicate opt_malloc_max none) 0
  (stress_malloc_cleanup s.1, s.2)

/-- A child termination status as reported by `waitpid`: normal exit with
a code, or death by a signal. -/
inductive WaitStatus where
  | exited : Nat → WaitStatus
  | signaled : Nat → WaitStatus
deriving DecidableEq

/-- What the `stress_malloc` parent does with a reaped child's status
(part_000 lines 148-162): on any death by signal it logs the child's
death at debug level; if and only if the fatal signal is SIGKILL it also
logs system memory info and restarts the child (`goto again`). -/
structure MallocWaitAction where
  restart : Bool
  logChildDeath : Bool
  logMemInfo : Bool
deriving DecidableEq

/-- The `stress_malloc` parent's policy for one reaped status. -/
def stress_malloc_wait_action : WaitStatus → MallocWaitAction
  | .exited _ => ⟨false, false, false⟩
  | .signaled sig => ⟨sig == SIGKILL, true, sig == SIGKILL⟩

/-- The `stress_malloc` parent's restart loop: it re-forks the child after
every SIGKILL death (`restarts++; goto again`), with no bound on the
number of restarts; any other status ends the loop.  Given the successive
statuses of the successive children, returns the number of restarts and
the first status that was not restarted. -/
def stress_malloc_supervise : List WaitStatus → Nat × Option WaitStatus
  | [] => (0, none)
  | st :: rest =>
    if (stress_malloc_wait_action st).restart then
      let t := stress_malloc_supervise rest
      (t.1 + 1, t.2)
    else (0, some st)

/-- The outcome of one `fork()` call: a child pid, or a failure with an
errno value. -/
inductive ForkResult where
  | ok : Nat → ForkResult
  | err : Nat → ForkResult
deriving DecidableEq

/-- The `again:` fork loop of `stress_malloc` (part_000 lines 126-132):
`pid = fork(); if (pid < 0) { if (opt_do_run && (errno == EAGAIN)) goto again; pr_err(...); }`.
Driven by the list of successive fork outcomes; returns the number of
fork attempts made and the outcome the loop stopped on. -/
def stress_malloc_fork_go (run : Bool) : List ForkResult → Nat × Option ForkResult
  | [] => (0, none)
  | r :: rest =>
    match r with
    | .ok p => (1, some (.ok p))
    | .err e =>
      if run ∧ e = EAGAIN then
        let t := stress_malloc_fork_go run rest
        (t.1 + 1, t.2)
      else (1, some (.err e))

/-- The `stress_rmap` spawn loop (stress-rmap.c lines 189-210):
`for (i = 0; i < RMAP_CHILD_MAX; i++) { pids[i] = fork(); if (pids[i] < 0) { pr_err(...); goto cleanup; } }`.
Any fork failure — whatever the errno — aborts the remaining spawn
attempts with no retry.  `remaining` starts at `RMAP_CHILD_MAX`; returns
the number of children spawned and whether the loop aborted early. -/
def stress_rmap_spawn_go : Nat → List ForkResult → Nat × Bool
  | 0, _ => (0, false)
  | remaining + 1, rs =>
    match rs.headD (.err 0) with
    | .ok _ =>
      let t := stress_rmap_spawn_go remaining rs.tail
      (t.1 + 1, t.2)
    | .err _ => (0, true)

/-- An observable action of a supervisor reaping one child. -/
inductive SupEvent where
  | sigTerm : SupEvent
  | sigKill : SupEvent
  | waitCall : SupEvent
  | logError : SupEvent
deriving DecidableEq

/-- The `stress_rmap` cleanup of one still-tracked child (stress-rmap.c
lines 225-240): `kill(pids[i], SIGKILL); ret = waitpid(...);` and, only
when that wait fails, `errno != EINTR` is logged, then
`kill(SIGTERM); kill(SIGKILL); waitpid(...)`.  The trace is the list of
observable actions in program order. -/
def stress_rmap_reap_child (waitFails : Bool) (errno : Nat) : List SupEvent :=
  [.sigKill, .waitCall] ++
    (if waitFails then
      (if errno ≠ EINTR then [.logError] else []) ++ [.sigTerm, .sigKill, .waitCall]
    else [])

/-- The `stress_malloc` parent's reap of its child (part_000 lines
140-147): `ret = waitpid(...);` and, only when that wait fails,
`errno != EINTR` is logged, then `kill(SIGTERM); kill(SIGKILL);
waitpid(...)`. -/
def stress_malloc_reap_child (waitFails : Bool) (errno : Nat) : List SupEvent :=
  [.waitCall] ++
    (if waitFails then
      (if errno ≠ EINTR then [.logError] else []) ++ [.sigTerm, .sigKill, .waitCall]
    else [])

/-- Helper for the trace check: `seenTerm` records whether a SIGTERM has
already occurred; holds when every SIGKILL in the trace is preceded by an
earlier SIGTERM. -/
def killAfterTermFrom (seenTerm : Bool) : List SupEvent → Bool
  | [] => true
  | e :: rest =>
    match e with
    | .sigKill => seenTerm && killAfterTermFrom seenTerm rest
    | .sigTerm => killAfterTermFrom true rest
    | _ => killAfterTermFrom seenTerm rest

/-- Every SIGKILL in the trace is preceded by an earlier SIGTERM. -/
def killAfterTerm (evs : List SupEvent) : Bool :=
  killAfterTermFrom false evs

/-! ## Helper lemmas -/

theorem list_getD_set_self {α : Type _} (l : List α) (i : Nat) (v d : α)
    (h : i < l.length) : (l.set i v).getD i d = v := by
  simp [List.getD_eq_getElem?_getD, List.getElem?_set_self h]

theorem list_getD_set_ne {α : Type _} (l : List α) {i j : Nat} (v d : α)
    (h : i ≠ j) : (l.set i v).getD j d = l.getD j d := by
  simp [List.getD_eq_getElem?_getD, List.getElem?_set_ne h]

theorem rmap_iter_snd (inp : RmapIn) (ws : List Nat) (c : Nat) :
    (rmap_iter inp ws c).2 = c + 1 := rfl

theorem stress_rmap_child_go_counter (fuel : Nat) :
    ∀ ins max_ops ws counter,
      (stress_rmap_child_go fuel ins max_ops ws counter).map (fun s => s.2) =
        stress_rmap_child_counter fuel max_ops counter := by
  induction fuel with
  | zero => intros; rfl
  | succ f ih =>
    intro ins max_ops ws counter
    simp only [stress_rmap_child_go, stress_rmap_child_counter, rmap_iter_snd]
    split
    · rfl
    · exact ih ins.tail max_ops _ _

theorem stress_rmap_child_counter_unbounded (fuel : Nat) :
    ∀ counter, stress_rmap_child_counter fuel 0 counter = none := by
  induction fuel with
  | zero => intro c; rfl
  | succ f ih =>
    intro c
    simp only [stress_rmap_child_counter]
    rw [if_neg (by omega)]
    exact ih (c + 1)

theorem stress_rmap_child_counter_exact (fuel : Nat) :
    ∀ max_ops counter, max_ops ≠ 0 → counter < max_ops → fuel = max_ops - counter →
      stress_rmap_child_counter fuel max_ops counter = some max_ops := by
  induction fuel with
  | zero => intro m c hm hc hf; omega
  | succ f ih =>
    intro m c hm hc hf
    simp only [stress_rmap_child_counter]
    by_cases h : m ≤ c + 1
    · rw [if_pos ⟨hm, h⟩]
      exact congrArg some (by omega)
    · rw [if_neg (by omega)]
      exact ih m (c + 1) hm (by omega) (by omega)

theorem rmap_aggregate_pass_eq (slots : List Nat) :
    ∀ counter, stress_rmap_aggregate_pass counter slots = counter + slots.sum := by
  induction slots with
  | nil => intro c; simp [stress_rmap_aggregate_pass]
  | cons s rest ih =>
    intro c
    simp only [stress_rmap_aggregate_pass, List.foldl_cons] at *
    rw [ih (c + s), List.sum_cons]
    omega

theorem malloc_supervise_replicate (n : Nat) :
    stress_malloc_supervise
        (List.replicate n (WaitStatus.signaled SIGKILL) ++ [WaitStatus.exited 0]) =
      (n, some (WaitStatus.exited 0)) := by
  induction n with
  | zero => rfl
  | succ n ih =>
    have h : List.replicate (n + 1) (WaitStatus.signaled SIGKILL) ++ [WaitStatus.exited 0] =
        WaitStatus.signaled SIGKILL ::
          (List.replicate n (WaitStatus.signaled SIGKILL) ++ [WaitStatus.exited 0]) := by
      simp [List.replicate_succ]
    rw [h]
    simp only [stress_malloc_supervise]
    rw [if_pos (by decide)]
    rw [ih]

theorem malloc_fork_replicate (p : Nat) :
    ∀ k, stress_malloc_fork_go true
        (List.replicate k (ForkResult.err EAGAIN) ++ [ForkResult.ok p]) =
      (k + 1, some (ForkResult.ok p)) := by
  intro k
  induction k with
  | zero => rfl
  | succ k ih =>
    have h : List.replicate (k + 1) (ForkResult.err EAGAIN) ++ [ForkResult.ok p] =
        ForkResult.err EAGAIN ::
          (List.replicate k (ForkResult.err EAGAIN) ++ [ForkResult.ok p]) := by
      simp [List.replicate_succ]
    rw [h]
    simp only [stress_malloc_fork_go]
    rw [if_pos (by decide)]
    rw [ih]

theorem rmap_case3_go_spec :
    ∀ (n : Nat) (ws : List Nat), ws.length = 64 → n ≤ 63 →
      ∀ j, (rmap_case3_go ws n).getD j 0 =
        if 63 - n ≤ j ∧ j < 63 then ws.getD (j + 1) 0 else ws.getD j 0 := by
  intro n
  induction n with
  | zero =>
    intro ws _ _ j
    simp only [rmap_case3_go]
    rw [if_neg (by omega)]
  | succ n ih =>
    intro ws hlen hn j
    simp only [rmap_case3_go, MAPPINGS_MAX]
    set i := 64 - 1 - (n + 1) with hi
    set v := ws.getD (i + 1) 0 with hv
    have hlen2 : (ws.set i v).length = 64 := by simp [hlen]
    rw [ih (ws.set i v) hlen2 (by omega) j]
    by_cases h1 : 63 - n ≤ j ∧ j < 63
    · rw [if_pos h1, if_pos (by omega)]
      exact list_getD_set_ne ws v 0 (by omega)
    · by_cases h2 : j = i
      · subst h2
        rw [if_neg h1, if_pos (by omega)]
        rw [list_getD_set_self ws i v 0 (by omega)]
      · rw [if_neg h1]
        rw [list_getD_set_ne ws v 0 (fun he => h2 he.symm)]
        rw [if_neg (by omega)]

/-! ## Claim theorems -/

/-- Claim C1, counterexample: at M = 1 the per-worker budget
`max_ops / RMAP_CHILD_MAX` is 0, which `stress_rmap_child` treats as
unbounded, so the worker loop never terminates (for any fuel), contradicting
the claim that for every M > 0 every worker's loop terminates and the slot
sum stays within M + W - 1. -/
theorem claim1_budget_cex :
    rmap_child_budget 1 = 0 ∧
    ¬ ∃ fuel r, stress_rmap_child_go fuel [] (rmap_child_budget 1)
        (List.replicate MAPPINGS_MAX 0) 0 = some r := by
  refine ⟨rfl, ?_⟩
  rintro ⟨fuel, r, h⟩
  have hmap := stress_rmap_child_go_counter fuel [] (rmap_child_budget 1)
      (List.replicate MAPPINGS_MAX 0) 0
  rw [h] at hmap
  have h0 : rmap_child_budget 1 = 0 := rfl
  rw [h0, stress_rmap_child_counter_unbounded fuel 0] at hmap
  simp at hmap

/-- Claim C1, amended: for every M ≥ W (W = RMAP_CHILD_MAX = 16) each
worker's budget is floor(M/16) ≥ 1, every worker's loop terminates with its
slot equal to exactly floor(M/16), and the sum of the 16 final slots,
16 * floor(M/16), never exceeds M — in particular never exceeds M + W - 1. -/
theorem claim1_budget_fairness (M : Nat) (h : RMAP_CHILD_MAX ≤ M) :
    rmap_child_budget M = M / 16 ∧
    1 ≤ rmap_child_budget M ∧
    (∀ ins ws, ∃ r, stress_rmap_child_go (rmap_child_budget M) ins
        (rmap_child_budget M) ws 0 = some r ∧ r.2 = rmap_child_budget M) ∧
    RMAP_CHILD_MAX * rmap_child_budget M ≤ M ∧
    RMAP_CHILD_MAX * rmap_child_budget M ≤ M + (RMAP_CHILD_MAX - 1) := by
  simp only [rmap_child_budget, RMAP_CHILD_MAX] at h ⊢
  refine ⟨by simp, by omega, ?_, by omega, by omega⟩
  intro ins ws
  have hex := stress_rmap_child_counter_exact (M / 16) (M / 16) 0
    (by omega) (by omega) (by omega)
  have hmap := stress_rmap_child_go_counter (M / 16) ins (M / 16) ws 0
  rw [hex] at hmap
  obtain ⟨r, hr1, hr2⟩ := Option.map_eq_some'.mp hmap
  exact ⟨r, hr1, hr2⟩

/-- Witness for the amended claim C1 at M = 32. -/
theorem claim1_budget_fairness_witness :
    RMAP_CHILD_MAX ≤ 32 ∧
    (rmap_child_budget 32 = 32 / 16 ∧
     1 ≤ rmap_child_budget 32 ∧
     (∀ ins ws, ∃ r, stress_rmap_child_go (rmap_child_budget 32) ins
         (rmap_child_budget 32) ws 0 = some r ∧ r.2 = rmap_child_budget 32) ∧
     RMAP_CHILD_MAX * rmap_child_budget 32 ≤ 32 ∧
     RMAP_CHILD_MAX * rmap_child_budget 32 ≤ 32 + (RMAP_CHILD_MAX - 1)) :=
  ⟨by decide, claim1_budget_fairness 32 (by decide)⟩

/-- Claim C2: the `stress_malloc` supervisor restarts its child exactly when
the child died by SIGKILL (treated as an OOM kill), logging memory info, and
does so for any number of consecutive SIGKILL deaths; a death by any other
signal is logged at debug level but never restarted, and a normal exit is
not restarted. -/
theorem claim2_oom_restart :
    (∀ n : Nat, stress_malloc_supervise
        (List.replicate n (WaitStatus.signaled SIGKILL) ++ [WaitStatus.exited 0]) =
      (n, some (WaitStatus.exited 0))) ∧
    (stress_malloc_wait_action (WaitStatus.signaled SIGKILL)).restart = true ∧
    (stress_malloc_wait_action (WaitStatus.signaled SIGKILL)).logMemInfo = true ∧
    (∀ sig, sig ≠ SIGKILL →
      (stress_malloc_wait_action (WaitStatus.signaled sig)).logChildDeath = true ∧
      (stress_malloc_wait_action (WaitStatus.signaled sig)).restart = false) ∧
    (∀ code, (stress_malloc_wait_action (WaitStatus.exited code)).restart = false) := by
  refine ⟨malloc_supervise_replicate, rfl, rfl, ?_, fun code => rfl⟩
  intro sig hsig
  refine ⟨rfl, ?_⟩
  simp only [stress_malloc_wait_action]
  exact beq_eq_false_iff_ne.mpr hsig

/-- Witness for claim C2: two SIGKILL deaths give two restarts, and a
SIGTERM death is not restarted. -/
theorem claim2_oom_restart_witness :
    stress_malloc_supervise
        (List.replicate 2 (WaitStatus.signaled SIGKILL) ++ [WaitStatus.exited 0]) =
      (2, some (WaitStatus.exited 0)) ∧
    (stress_malloc_wait_action (WaitStatus.signaled SIGTERM)).restart = false :=
  ⟨claim2_oom_restart.1 2, (claim2_oom_restart.2.2.2.1 SIGTERM (by decide)).2⟩

/-- Claim C3, counterexample: in `stress_malloc` two consecutive EAGAIN
fork failures are both retried (three fork attempts in total), so an EAGAIN
failure is not retried "exactly once". -/
theorem claim3_fork_retry_cex :
    stress_malloc_fork_go true
        [ForkResult.err EAGAIN, ForkResult.err EAGAIN, ForkResult.ok 5] =
      (3, some (ForkResult.ok 5)) ∧ (3 : Nat) ≠ 2 := by decide

/-- Claim C3, amended: `stress_malloc` retries EAGAIN fork failures
unboundedly while the run-control signal is set (k consecutive EAGAIN
failures give k + 1 attempts), stops on the first non-EAGAIN error, and
does not retry EAGAIN once the run-control signal is clear; `stress_rmap`
never retries a fork failure — any error (EAGAIN included) aborts the spawn
loop with no child spawned by that attempt. -/
theorem claim3_fork_policy (k p e : Nat) (rest : List ForkResult) (he : e ≠ EAGAIN) :
    stress_malloc_fork_go true
        (List.replicate k (ForkResult.err EAGAIN) ++ [ForkResult.ok p]) =
      (k + 1, some (ForkResult.ok p)) ∧
    stress_malloc_fork_go true (ForkResult.err e :: rest) =
      (1, some (ForkResult.err e)) ∧
    stress_malloc_fork_go false (ForkResult.err EAGAIN :: rest) =
      (1, some (ForkResult.err EAGAIN)) ∧
    stress_rmap_spawn_go RMAP_CHILD_MAX (ForkResult.err e :: rest) = (0, true) ∧
    stress_rmap_spawn_go RMAP_CHILD_MAX (ForkResult.err EAGAIN :: rest) = (0, true) := by
  refine ⟨malloc_fork_replicate p k, ?_, ?_, rfl, rfl⟩
  · simp only [stress_malloc_fork_go]
    rw [if_neg (by simp [he])]
  · simp only [stress_malloc_fork_go]
    rw [if_neg (by simp)]

/-- Witness for the amended claim C3. -/
theorem claim3_fork_policy_witness :
    (12 : Nat) ≠ EAGAIN ∧
    (stress_malloc_fork_go true
        (List.replicate 2 (ForkResult.err EAGAIN) ++ [ForkResult.ok 7]) =
      (3, some (ForkResult.ok 7)) ∧
     stress_malloc_fork_go true (ForkResult.err 12 :: []) =
       (1, some (ForkResult.err 12)) ∧
     stress_malloc_fork_go false (ForkResult.err EAGAIN :: []) =
       (1, some (ForkResult.err EAGAIN)) ∧
     stress_rmap_spawn_go RMAP_CHILD_MAX (ForkResult.err 12 :: []) = (0, true) ∧
     stress_rmap_spawn_go RMAP_CHILD_MAX (ForkResult.err EAGAIN :: []) = (0, true)) :=
  ⟨by decide, claim3_fork_policy 2 7 12 [] (by decide)⟩

/-- Claim C4, counterexample: the parent adds every slot into the visible
counter on each pass without resetting it, so after two passes that both
see the slot snapshot [3, 0, ..., 0] the visible counter is 6, not the
current slot sum 3. -/
theorem claim4_aggregate_cex :
    stress_rmap_aggregate 0 [3 :: List.replicate 15 0, 3 :: List.replicate 15 0] = 6 ∧
    (3 :: List.replicate 15 0).sum = 3 ∧ (6 : Nat) ≠ 3 := by decide

/-- Claim C4, amended: after each pass the visible counter has grown by the
sum of the slot values seen in that pass — it accumulates the per-pass sums
over all passes rather than equalling the current sum of the slots. -/
theorem claim4_aggregate_accumulates (counter : Nat) (passes : List (List Nat)) :
    stress_rmap_aggregate counter passes = counter + (passes.map List.sum).sum := by
  induction passes generalizing counter with
  | nil => simp [stress_rmap_aggregate]
  | cons p rest ih =>
    have h1 : stress_rmap_aggregate counter (p :: rest) =
        stress_rmap_aggregate (stress_rmap_aggregate_pass counter p) rest := rfl
    rw [h1, ih, rmap_aggregate_pass_eq]
    simp [List.sum_cons]
    omega

/-- Claim C5, counterexample: the pairwise copy is
`memcpy(mappings[i], mappings[i + 1], sz)`, so with initial window contents
0, 1, 2, ... window 1 ends up holding 2 (the old contents of window 2),
not 0 (the old contents of window 0) as the claimed direction (window i
copied into window i+1) would give. -/
theorem claim5_copy_direction_cex :
    ((rmap_iter ⟨3, [], []⟩ (List.range 64) 0).1).getD 1 0 = 2 ∧
    (List.range 64).getD 0 0 = 0 ∧ (2 : Nat) ≠ 0 := by
  refine ⟨by decide, by decide, by decide⟩

/-- Claim C5, amended: in the pairwise forward copy strategy the contents
of window i+1 are copied into window i (for every i from 0 to N-2, the new
contents of window i equal the old contents of window i+1), and the last
window is left unchanged. -/
theorem claim5_copy_direction (rnd c : Nat) (fills idxs ws : List Nat)
    (hws : ws.length = MAPPINGS_MAX) (hr : rnd &&& 3 = 3) :
    (∀ j, j < MAPPINGS_MAX - 1 →
      ((rmap_iter ⟨rnd, fills, idxs⟩ ws c).1).getD j 0 = ws.getD (j + 1) 0) ∧
    ((rmap_iter ⟨rnd, fills, idxs⟩ ws c).1).getD (MAPPINGS_MAX - 1) 0 =
      ws.getD (MAPPINGS_MAX - 1) 0 := by
  have hsel : (rmap_iter ⟨rnd, fills, idxs⟩ ws c).1 =
      rmap_case3_go ws (MAPPINGS_MAX - 1) := by
    simp [rmap_iter, hr]
  have hlen : ws.length = 64 := by simpa [MAPPINGS_MAX] using hws
  have h63 : MAPPINGS_MAX - 1 = 63 := rfl
  rw [hsel, h63]
  constructor
  · intro j hj
    rw [rmap_case3_go_spec 63 ws hlen (by omega) j, if_pos (by omega)]
  · rw [rmap_case3_go_spec 63 ws hlen (by omega) 63, if_neg (by omega)]

/-- Witness for the amended claim C5 at window 5 of the contents 0..63. -/
theorem claim5_copy_direction_witness :
    (List.range 64).length = MAPPINGS_MAX ∧ ((7 : Nat) &&& 3 = 3) ∧
    ((rmap_iter ⟨7, [], []⟩ (List.range 64) 0).1).getD 5 0 =
      (List.range 64).getD 6 0 :=
  ⟨by decide, by decide,
    (claim5_copy_direction 7 0 [] [] (List.range 64) (by decide) (by decide)).1
      5 (by decide)⟩

/-- Claim C6: every iteration of the `stress_rmap_child` loop increments
the worker's private counter slot exactly once, whichever of the four
strategies was selected and however many windows that strategy touched —
the increment sits after the strategy switch, outside the per-window
loops. -/
theorem claim6_counter_once (inp : RmapIn) (ws : List Nat) (counter : Nat) :
    (rmap_iter inp ws counter).2 = counter + 1 := rfl

/-- Claim C7: in the `stress_malloc` child, when the selected slot is
occupied, the action bit selects resize, and the `realloc` fails, the
iteration leaves the whole table unchanged (the slot keeps its original
allocation) and does not increment the counter. -/
theorem claim7_realloc_failure (bytes mx : Nat) (inp : MallocIn)
    (addr : List (Option Nat)) (counter v : Nat)
    (hrun : inp.run = true)
    (hocc : addr.getD (inp.rnd % mx) none = some v)
    (hact : (inp.rnd >>> 12) &&& 1 = 0)
    (hfail : inp.allocOk = false) :
    stress_malloc_iter bytes mx inp addr counter = (addr, counter, false) := by
  simp [stress_malloc_iter, hrun, hocc, hact, hfail]
  split <;> rfl

/-- Witness for claim C7: slot 0 holds an allocation, the realloc fails,
and the iteration changes nothing. -/
theorem claim7_realloc_failure_witness :
    ((⟨0, 0, false, true⟩ : MallocIn).run = true ∧
     [some 3, none, none, none].getD ((0 : Nat) % 4) none = some 3 ∧
     ((0 : Nat) >>> 12) &&& 1 = 0 ∧
     (⟨0, 0, false, true⟩ : MallocIn).allocOk = false) ∧
    stress_malloc_iter 10 4 ⟨0, 0, false, true⟩ [some 3, none, none, none] 0 =
      ([some 3, none, none, none], 0, false) :=
  ⟨⟨rfl, by decide, by decide, rfl⟩,
    claim7_realloc_failure 10 4 ⟨0, 0, false, true⟩ [some 3, none, none, none]
      0 3 rfl (by decide) (by decide) rfl⟩

/-- Claim C8: on every exit path of the `stress_malloc` child loop —
normal loop exit and the early `goto abort` taken when the run-control
signal is observed clear mid-iteration both fall through to the `abort:`
cleanup — every allocation-table slot is freed, so the final table holds
no live allocation in any slot. -/
theorem claim8_cleanup_empties_table (opt_malloc_bytes opt_malloc_max max_ops : Nat)
    (ins : List MallocIn) :
    ((stress_malloc_child opt_malloc_bytes opt_malloc_max ins max_ops).1.all
      fun s => s.isNone) = true := by
  simp [stress_malloc_child, stress_malloc_cleanup, List.all_map, Function.comp]

/-- Claim C9, counterexample: when reaping a child, `stress_rmap` sends
SIGKILL first — before any SIGTERM has been sent at all (its trace when the
wait succeeds is exactly [SIGKILL, wait]), contradicting the claim that
SIGKILL is never sent before SIGTERM was sent and found ineffective. -/
theorem claim9_kill_first_cex :
    stress_rmap_reap_child false 0 = [SupEvent.sigKill, SupEvent.waitCall] ∧
    killAfterTerm (stress_rmap_reap_child false 0) = false := by decide

/-- Claim C9, amended: the `stress_malloc` supervisor does send SIGTERM
before SIGKILL (though without waiting in between), while `stress_rmap`
sends SIGKILL as its very first signal; in both, a failed wait is retried
(a second wait call follows) and a wait failure with errno EINTR is not
logged as an error. -/
theorem claim9_reap_policy (errno : Nat) (waitFails : Bool) :
    killAfterTerm (stress_malloc_reap_child waitFails errno) = true ∧
    (stress_rmap_reap_child waitFails errno).headD SupEvent.waitCall =
      SupEvent.sigKill ∧
    (errno = EINTR →
      SupEvent.logError ∉ stress_rmap_reap_child waitFails errno ∧
      SupEvent.logError ∉ stress_malloc_reap_child waitFails errno) ∧
    (stress_rmap_reap_child true errno).count SupEvent.waitCall = 2 ∧
    (stress_malloc_reap_child true errno).count SupEvent.waitCall = 2 := by
  by_cases he : errno = EINTR <;> cases waitFails <;>
    simp [stress_rmap_reap_child, stress_malloc_reap_child, killAfterTerm,
      killAfterTermFrom, he, List.count_cons]

/-- Witness for the amended claim C9 at errno = EINTR with a failing wait. -/
theorem claim9_reap_policy_witness :
    SupEvent.logError ∉ stress_rmap_reap_child true EINTR ∧
    SupEvent.logError ∉ stress_malloc_reap_child true EINTR :=
  (claim9_reap_policy EINTR true).2.2.1 rfl

/-- Claim C10: in the partitioned (calloc) allocation branch of the
`stress_malloc` child, the piece count n = ((rnd >> 15) % 17) + 1 lies in
1..17, the allocated total is n * floor(len/n) for the rolled size len,
the successful allocation increments the counter, and when len < n the
total is 0 bytes (and the counter is still incremented). -/
theorem claim10_calloc_partition (bytes mx : Nat) (inp : MallocIn)
    (addr : List (Option Nat)) (counter : Nat)
    (hrun : inp.run = true)
    (hempty : addr.getD (inp.rnd % mx) none = none)
    (hact : (inp.rnd >>> 12) &&& 1 ≠ 0)
    (hcal : (inp.rnd >>> 14) &&& 0x1f = 0)
    (hok : inp.allocOk = true) :
    1 ≤ ((inp.rnd >>> 15) % 17) + 1 ∧
    ((inp.rnd >>> 15) % 17) + 1 ≤ 17 ∧
    stress_malloc_iter bytes mx inp addr counter =
      (addr.set (inp.rnd % mx)
        (some ((((inp.rnd >>> 15) % 17) + 1) *
          (stress_alloc_size inp.lenRnd bytes / (((inp.rnd >>> 15) % 17) + 1)))),
       counter + 1, false) ∧
    (stress_alloc_size inp.lenRnd bytes < ((inp.rnd >>> 15) % 17) + 1 →
      (((inp.rnd >>> 15) % 17) + 1) *
        (stress_alloc_size inp.lenRnd bytes / (((inp.rnd >>> 15) % 17) + 1)) = 0) := by
  refine ⟨by omega, by omega, ?_, ?_⟩
  · rw [List.getD_eq_getElem?_getD] at hempty
    rw [Nat.and_one_is_mod] at hact
    have hact2 : inp.rnd >>> 12 % 2 = 1 := by omega
    simp [stress_malloc_iter, hrun, hempty, hact2, hcal, hok]
  · intro hlt
    rw [Nat.div_eq_of_lt hlt, Nat.mul_zero]

/-- Witness for claim C10: rnd = 528384 selects the calloc branch with
n = 17 pieces, len = 5 < 17, so the allocated total is 0 bytes and the
counter is still incremented. -/
theorem claim10_calloc_partition_witness :
    1 ≤ (((528384 : Nat) >>> 15) % 17) + 1 ∧
    (((528384 : Nat) >>> 15) % 17) + 1 ≤ 17 ∧
    stress_malloc_iter 100 4 ⟨528384, 5, true, true⟩ (List.replicate 4 none) 0 =
      ((List.replicate 4 none).set ((528384 : Nat) % 4)
        (some (((((528384 : Nat) >>> 15) % 17) + 1) *
          (stress_alloc_size 5 100 / ((((528384 : Nat) >>> 15) % 17) + 1)))),
       0 + 1, false) ∧
    (stress_alloc_size 5 100 < (((528384 : Nat) >>> 15) % 17) + 1 →
      ((((528384 : Nat) >>> 15) % 17) + 1) *
        (stress_alloc_size 5 100 / ((((528384 : Nat) >>> 15) % 17) + 1)) = 0) :=
  claim10_calloc_partition 100 4 ⟨528384, 5, true, true⟩ (List.replicate 4 none) 0
    rfl (by decide) (by decide) (by decide) rfl
